import Mathlib

/-!
Verification of the `folly::coro` AsyncClosure engine
(`folly/coro/safe/detail/AsyncClosure.h`), the `co_error` / `co_result`
wrappers (`folly/coro/Result.h`) and the `NowTask` emission path, as a
shallow embedding in Lean 4.

The embedding follows the source:
  - the `safe_alias` lattice and its `least_safe_alias` join,
  - the construction-time safety gate of `async_closure_wrap_coro`,
  - a linearized trace semantics of `async_closure_make_outer_coro` /
    `async_closure_outer_coro` (argument construction, cleanup-task
    materialization, cancellation propagation, awaiting the inner task,
    sequential cleanup, storage destruction),
  - the storage-arena decision of `bind_captures_to_closure`,
  - the `cumsum_except_last` index helper,
  - the constructor assertions of `co_error` and `co_result`.
-/

/-- Modelled from the spec: the `safe_alias` enumeration itself lives in
`folly/lang/SafeAlias-fwd.h`, which is not part of this tree; only its
members are used by `AsyncClosure.h` and its test.  Ordered from least to
most safe, as the spec's lattice demands: `unsafe` (here `noSafety`, to keep
identifiers clean) < `unsafe_closure_internal` (`closureInternal`) <
`shared_cleanup` (`sharedCleanup`) < `co_cleanup_safe_ref`
(`coCleanupSafeRef`) < `after_cleanup_ref` (`afterCleanupRef`) <
`maybe_value` (`maybeValue`). -/

inductive SafetyLevel where
  | noSafety
  | closureInternal
  | sharedCleanup
  | coCleanupSafeRef
  | afterCleanupRef
  | maybeValue
deriving DecidableEq, Repr

/-- Numeric rank of a safety level, following the enumeration order. -/
def SafetyLevel.toNat : SafetyLevel → Nat
  | .noSafety => 0
  | .closureInternal => 1
  | .sharedCleanup => 2
  | .coCleanupSafeRef => 3
  | .afterCleanupRef => 4
  | .maybeValue => 5

/-- The total order on safety levels (the enumeration order). -/
def SafetyLevel.le (a b : SafetyLevel) : Prop := a.toNat ≤ b.toNat

instance (a b : SafetyLevel) : Decidable (SafetyLevel.le a b) :=
  inferInstanceAs (Decidable (a.toNat ≤ b.toNat))

/-- Binary minimum of two safety levels under the enumeration order. -/
def SafetyLevel.min (a b : SafetyLevel) : SafetyLevel :=
  if a.toNat ≤ b.toNat then a else b

/-- Modelled from the spec: `folly::least_safe_alias` (declared in
`SafeAlias-fwd.h`, outside this tree) -- the join over a pack of levels,
`std::min({safe_alias::maybe_value, Vs...})`: the fold of the binary
minimum, seeded with the safest element `maybe_value`. -/
def leastSafeAlias (ls : List SafetyLevel) : SafetyLevel :=
  ls.foldl SafetyLevel.min SafetyLevel.maybeValue

/-! The construction-time safety gate (`async_closure_wrap_coro`,
`AsyncClosure.h` lines 211-258), and the `async_now_closure` emission path
(`bind_captures_to_closure`, lines 503-508). -/

/-- The library's minimum safety required of every closure argument for a
shareable closure: `safe_alias::closure_min_arg_safety`, which per the
`release_outer_coro` diagnostic ("must have `safe_alias_of_v` of at least
`shared_cleanup`") equals `shared_cleanup`. -/
def closureMinArgSafety : SafetyLevel := SafetyLevel.sharedCleanup

/-- `async_closure_wrap_coro::has_safe_args`: `OuterSafety >=
safe_alias::closure_min_arg_safety`. -/
def has_safe_args (outerSafety : SafetyLevel) : Bool :=
  decide (closureMinArgSafety.le outerSafety)

/-- `async_closure_wrap_coro::is_inner_coro_safe`: `InnerSafety >=
safe_alias::unsafe_closure_internal` (the inner coro's own minimum internal
threshold). -/
def is_inner_coro_safe (innerSafety : SafetyLevel) : Bool :=
  decide (SafetyLevel.closureInternal.le innerSafety)

/-- `async_closure_wrap_coro::is_safe()`: both conditions must hold. -/
def wrap_coro_is_safe (outerSafety innerSafety : SafetyLevel) : Bool :=
  has_safe_args outerSafety && is_inner_coro_safe innerSafety

/-- `async_closure_wrap_coro::release_outer_coro()`: the two
`static_assert`s fire at construction time (modelled as `none`) unless
`has_safe_args` and `is_inner_coro_safe` both hold; on success the wrapped
outer coroutine (the "mover", modelled as a payload) is released. -/
def release_outer_coro (outerSafety innerSafety : SafetyLevel) (task : Nat) :
    Option Nat :=
  if wrap_coro_is_safe outerSafety innerSafety then some task else none

/-- The `Cfg.force_shared_cleanup` branch of `bind_captures_to_closure`
(`async_now_closure`): `toNowTask(std::move(outer_mover)())` is emitted
unconditionally -- no safety check guards the immovable flavor. -/
def emit_now_task (task : Nat) : Option Nat := some task

/-! `cumsum_except_last` (`AsyncClosure.h` lines 185-192): maps a seed and a
value pack to the pack of exclusive prefix sums, dropping the total. -/

/-- `cumsum_except_last<Sum, Vs...>`: the empty pack yields the empty
sequence; otherwise the seed is emitted and the head is folded into the
seed for the tail. -/
def cumsum_except_last (sum : Nat) : List Nat → List Nat
  | [] => []
  | v :: vs => sum :: cumsum_except_last (sum + v) vs

/-! `folly/coro/Result.h`: the `co_error` and `co_result` wrappers.  An
`exception_wrapper` is modelled as `Option Nat` (`none` = empty wrapper, a
`some` code = a held exception); a `Try` is empty, a value, or an exception
state holding an `exception_wrapper` (which C++ allows to be null). -/

/-- Model of `folly::Try<T>` with `T` a number: default-constructed
(`empty`), a value, or an exception state whose `exception_wrapper` may
itself be empty. -/
inductive TryModel where
  | empty
  | val (v : Nat)
  | exn (e : Option Nat)
deriving DecidableEq, Repr

/-- `Try::hasException()`. -/
def TryModel.hasException : TryModel → Bool
  | .exn _ => true
  | _ => false

/-- Truthiness of `Try::exception()` -- whether the held wrapper is
non-empty (`false` in the non-exception states, where the C++ call would
throw rather than yield a wrapper). -/
def TryModel.exceptionTruthy : TryModel → Bool
  | .exn e => e.isSome
  | _ => false

/-- The `co_error` payload: the `exception_wrapper ex_` member. -/
structure CoErrorModel where
  ex : Option Nat
deriving DecidableEq, Repr

/-- The `co_error(A&&... a)` constructor (`Result.h` lines 30-49): builds
`ex_` from the arguments (modelled by the wrapper those arguments produce)
and runs `assert(ex_)`; a failed assertion aborts construction (`none`). -/
def co_error_construct (ex : Option Nat) : Option CoErrorModel :=
  if ex.isSome then some ⟨ex⟩ else none

/-- The `co_result` payload: the `Try<T> result_` member. -/
structure CoResultModel where
  result : TryModel
deriving DecidableEq, Repr

/-- The `co_result(Try<T>&&)` constructor (`Result.h` lines 51-75): stores
the `Try` and runs `assert(!result_.hasException() || result_.exception())`;
a failed assertion aborts construction (`none`). -/
def co_result_construct (t : TryModel) : Option CoResultModel :=
  if !t.hasException || t.exceptionTruthy then some ⟨t⟩ else none

/-! Trace semantics of the closure engine.

`bind_captures_to_closure` constructs the storage tuple in-place
left-to-right (`async_closure_storage`, lines 281-302);
`async_closure_make_outer_coro` (lines 88-117) materializes every
`co_cleanup` task -- merging them in reverse construction order via
`lite_tuple::reverse_apply` -- before the outer coroutine runs;
`async_closure_outer_coro` (lines 130-183) then optionally propagates the
ambient cancellation token (`try_and_catch` capturing any error into the
shared `inner_err_` cell), awaits the inner task only when the cell is
still empty (moving an inner failure into the cell), awaits the cleanup
tasks sequentially right-to-left (each observing the cell through
`inner_err_ptr()`), and finally completes with value / re-raised error /
`UsingUninitializedTry`; the storage tuple is destroyed last, right-to-left.

Arguments are numbered by construction order `0..n-1`; `hooks` records
which argument declares a `co_cleanup` hook.  The inner task's behavior is
an `InnerOutcome`; errors are numbers; `post` is `result_after_cleanup`
(the identity when the result type lacks it). -/

/-- Behavior of the inner task when awaited: it completes with a value or
with an exception. -/
inductive InnerOutcome where
  | value (v : Nat)
  | failure (e : Nat)
deriving DecidableEq, Repr

/-- The `Try<ResultT> res` outcome slot of `async_closure_outer_coro`:
default-constructed (never written), holding a value, or holding an
exception. -/
inductive TrySlot where
  | empty
  | value (v : Nat)
  | exn (e : Nat)
deriving DecidableEq, Repr

/-- What the outer coroutine's caller observes: a returned value, a
re-raised error (`co_yield co_error(std::move(inner_err))`, carrying the
first-error cell), or the defensive `UsingUninitializedTry` fault. -/
inductive ClosureOutcome where
  | value (v : Nat)
  | error (w : Option Nat)
  | fault
deriving DecidableEq, Repr

/-- Observable steps of one closure execution, in program order. -/
inductive TraceEvent where
  | constructArg (i : Nat)
  | makeCleanupTask (i : Nat)
  | propagateCancel
  | awaitInner
  | runCleanup (i : Nat) (observed : Option Nat)
  | destroyArg (i : Nat)
deriving DecidableEq, Repr

/-- Indices (in construction order) of the arguments that declare a
`co_cleanup` hook. -/
def hookIndices (hooks : List Bool) : List Nat :=
  (List.range hooks.length).filter (fun i => hooks.getD i false)

/-- The completion step of `async_closure_outer_coro` (lines 171-181):
`res.hasValue()` wins (returning the value through
`async_closure_outer_coro_result`, i.e. `result_after_cleanup` when the
type has it), then `res.hasException()` re-raises the first-error cell,
otherwise the defensive `UsingUninitializedTry` fault. -/
def outerFinish (post : Nat → Nat) (res : TrySlot) (cell : Option Nat) :
    ClosureOutcome :=
  match res with
  | .value v => .value (post v)
  | .exn _ => .error cell
  | .empty => .fault

/-- Result of one closure execution: the linearized event trace, the final
states of the `Try<ResultT>` outcome slot and of the shared first-error
cell, and the caller-visible outcome. -/
structure ClosureRun where
  trace : List TraceEvent
  resSlot : TrySlot
  firstErr : Option Nat
  outcome : ClosureOutcome
deriving DecidableEq, Repr

/-- One end-to-end execution of a closure with an outer coroutine:
construct storage left-to-right, materialize cleanup tasks (reverse
construction order, before the outer coroutine body runs), optionally
propagate the cancellation token (its failure filling the first-error
cell), await the inner task only if the cell is empty, run the cleanup
tasks sequentially in reverse construction order (each observing the
cell), complete via `outerFinish`, and destroy storage right-to-left. -/
def closureRun (hooks : List Bool) (setCancelTok : Bool)
    (cancelErr : Option Nat) (inner : InnerOutcome) (post : Nat → Nat) :
    ClosureRun :=
  let n := hooks.length
  let constructs := (List.range n).map TraceEvent.constructArg
  let makes := (hookIndices hooks).reverse.map TraceEvent.makeCleanupTask
  let cancelEvts : List TraceEvent :=
    if setCancelTok then [TraceEvent.propagateCancel] else []
  let cell1 : Option Nat := if setCancelTok then cancelErr else none
  let awaitStep : List TraceEvent × TrySlot × Option Nat :=
    match cell1 with
    | none =>
      match inner with
      | .value v => ([TraceEvent.awaitInner], TrySlot.value v, none)
      | .failure e => ([TraceEvent.awaitInner], TrySlot.exn e, some e)
    | some e => ([], TrySlot.empty, some e)
  let cell2 := awaitStep.2.2
  let cleanups :=
    (hookIndices hooks).reverse.map (fun i => TraceEvent.runCleanup i cell2)
  let destroys := (List.range n).reverse.map TraceEvent.destroyArg
  { trace := constructs ++ makes ++ cancelEvts ++ awaitStep.1 ++
      cleanups ++ destroys
    resSlot := awaitStep.2.1
    firstErr := cell2
    outcome := outerFinish post awaitStep.2.1 cell2 }

/-- Recognizer for cleanup-execution events. -/
def isCleanupEvt : TraceEvent → Bool
  | .runCleanup _ _ => true
  | _ => false

/-- Recognizer for argument-destruction events. -/
def isDestroyEvt : TraceEvent → Bool
  | .destroyArg _ => true
  | _ => false

/-- Recognizer for cleanup-task-materialization events. -/
def isMakeEvt : TraceEvent → Bool
  | .makeCleanupTask _ => true
  | _ => false

/-- Recognizer for the inner-task await event. -/
def isAwaitEvt : TraceEvent → Bool
  | .awaitInner => true
  | _ => false

/-- Argument indices of the cleanup executions of a trace, in execution
order. -/
def cleanupIdxList (tr : List TraceEvent) : List Nat :=
  tr.filterMap fun ev =>
    match ev with
    | .runCleanup i _ => some i
    | _ => none

/-- Argument indices of the cleanup-task materializations of a trace, in
order. -/
def makeIdxList (tr : List TraceEvent) : List Nat :=
  tr.filterMap fun ev =>
    match ev with
    | .makeCleanupTask i => some i
    | _ => none

/-- Every event satisfying `p` occurs strictly before every event
satisfying `q` in the trace. -/
def precedes (tr : List TraceEvent) (p q : TraceEvent → Bool) : Prop :=
  ∀ i, ∀ hi : i < tr.length, ∀ j, ∀ hj : j < tr.length,
    p (tr.get ⟨i, hi⟩) = true → q (tr.get ⟨j, hj⟩) = true → i < j

/-! The storage-arena decision of `bind_captures_to_closure`
(`AsyncClosure.h` lines 357-393): collect the bindings that are
`async_closure_outer_stored_arg` instantiations; with zero of them the
storage pointer is `std::nullopt` ("no outer closure") and
`release_outer_coro` returns the inner task mover unchanged (lines
484-501); otherwise all collected args are constructed in place on a
heap-allocated `async_closure_storage`. -/

/-- One caller-supplied binding, reduced to the single property the arena
decision inspects: whether it resolved to an
`async_closure_outer_stored_arg` (owned storage on the outer coroutine). -/
structure ClosureBinding where
  needsOuterStorage : Bool
deriving DecidableEq, Repr

/-- Step (1) of `bind_captures_to_closure`: collect the args that need
storage on the outer coro. -/
def collect_outer_stored (bs : List ClosureBinding) : List ClosureBinding :=
  bs.filter fun b => b.needsOuterStorage

/-- Step (2): with zero collected args the storage pointer is `nullopt`,
otherwise the storage tuple is built from exactly the collected args. -/
def storage_ptr_of (bs : List ClosureBinding) :
    Option (List ClosureBinding) :=
  if collect_outer_stored bs = [] then none else some (collect_outer_stored bs)

/-- Awaiting the inner task directly (the "no outer coro" path): its value,
or its error re-raised. -/
def runNoOuterCoro (inner : InnerOutcome) : ClosureOutcome :=
  match inner with
  | .value v => .value v
  | .failure e => .error (some e)

/-! Lemmas and claim theorems. -/

lemma SafetyLevel.min_top (x : SafetyLevel) :
    SafetyLevel.min SafetyLevel.maybeValue x = x := by
  cases x <;> rfl

lemma SafetyLevel.min_choice (a b : SafetyLevel) :
    SafetyLevel.min a b = a ∨ SafetyLevel.min a b = b := by
  unfold SafetyLevel.min
  split <;> simp

lemma SafetyLevel.min_le_left (a b : SafetyLevel) :
    (SafetyLevel.min a b).le a := by
  unfold SafetyLevel.min SafetyLevel.le
  split
  · exact Nat.le_refl _
  · omega

lemma SafetyLevel.min_le_right (a b : SafetyLevel) :
    (SafetyLevel.min a b).le b := by
  unfold SafetyLevel.min SafetyLevel.le
  split
  · assumption
  · exact Nat.le_refl _

lemma foldl_min_mem (ls : List SafetyLevel) :
    ∀ a : SafetyLevel, ls.foldl SafetyLevel.min a = a ∨ ls.foldl SafetyLevel.min a ∈ ls := by
  induction ls with
  | nil => intro a; exact Or.inl rfl
  | cons x xs ih =>
    intro a
    simp only [List.foldl_cons]
    rcases ih (SafetyLevel.min a x) with h | h
    · rw [h]
      rcases SafetyLevel.min_choice a x with h2 | h2
      · exact Or.inl h2
      · exact Or.inr (by rw [h2]; exact List.mem_cons_self x xs)
    · exact Or.inr (List.mem_cons_of_mem x h)

lemma foldl_min_le_init (ls : List SafetyLevel) :
    ∀ a : SafetyLevel, (ls.foldl SafetyLevel.min a).le a := by
  induction ls with
  | nil => intro a; exact Nat.le_refl _
  | cons x xs ih =>
    intro a
    simp only [List.foldl_cons]
    exact Nat.le_trans (ih (SafetyLevel.min a x)) (SafetyLevel.min_le_left a x)

lemma foldl_min_le_mem (ls : List SafetyLevel) :
    ∀ a : SafetyLevel, ∀ x ∈ ls, (ls.foldl SafetyLevel.min a).le x := by
  induction ls with
  | nil => intro a x hx; cases hx
  | cons y ys ih =>
    intro a x hx
    simp only [List.foldl_cons]
    rcases List.mem_cons.mp hx with h | h
    · subst h
      exact Nat.le_trans (foldl_min_le_init ys (SafetyLevel.min a x))
        (SafetyLevel.min_le_right a x)
    · exact ih (SafetyLevel.min a y) x h

lemma SafetyLevel.le_top (x : SafetyLevel) : x.le SafetyLevel.maybeValue := by
  cases x <;> decide

/-- C3: `join` over a non-empty sequence of safety levels is the minimum
element of the sequence under the declared total order; `join` of the empty
sequence is the maximum (safest) element `maybe_value`, which is the
identity of the operation. -/
theorem c3_join_is_min (ls : List SafetyLevel) (hne : ls ≠ []) :
    (leastSafeAlias ls ∈ ls ∧ ∀ x ∈ ls, (leastSafeAlias ls).le x) ∧
    leastSafeAlias [] = SafetyLevel.maybeValue ∧
    (∀ x : SafetyLevel, x.le SafetyLevel.maybeValue) ∧
    (∀ ms : List SafetyLevel,
      leastSafeAlias (SafetyLevel.maybeValue :: ms) = leastSafeAlias ms) := by
  refine ⟨?_, rfl, SafetyLevel.le_top, ?_⟩
  · match ls, hne with
    | x :: xs, _ =>
      have hrw : leastSafeAlias (x :: xs) = xs.foldl SafetyLevel.min x := by
        unfold leastSafeAlias
        simp only [List.foldl_cons, SafetyLevel.min_top]
      constructor
      · rw [hrw]
        rcases foldl_min_mem xs x with h | h
        · rw [h]; exact List.mem_cons_self x xs
        · exact List.mem_cons_of_mem x h
      · intro y hy
        rw [hrw]
        rcases List.mem_cons.mp hy with h | h
        · subst h; exact foldl_min_le_init xs y
        · exact foldl_min_le_mem xs x y h
  · intro ms
    unfold leastSafeAlias
    simp only [List.foldl_cons, SafetyLevel.min_top]

/-- Witness for C3 at a concrete sequence. -/
theorem c3_join_is_min_witness :
    (leastSafeAlias
        [SafetyLevel.afterCleanupRef, SafetyLevel.sharedCleanup,
          SafetyLevel.maybeValue] ∈
        [SafetyLevel.afterCleanupRef, SafetyLevel.sharedCleanup,
          SafetyLevel.maybeValue] ∧
      ∀ x ∈ [SafetyLevel.afterCleanupRef, SafetyLevel.sharedCleanup,
          SafetyLevel.maybeValue],
        (leastSafeAlias
            [SafetyLevel.afterCleanupRef, SafetyLevel.sharedCleanup,
              SafetyLevel.maybeValue]).le x) ∧
    leastSafeAlias [] = SafetyLevel.maybeValue ∧
    (∀ x : SafetyLevel, x.le SafetyLevel.maybeValue) ∧
    (∀ ms : List SafetyLevel,
      leastSafeAlias (SafetyLevel.maybeValue :: ms) = leastSafeAlias ms) :=
  c3_join_is_min
    [SafetyLevel.afterCleanupRef, SafetyLevel.sharedCleanup,
      SafetyLevel.maybeValue]
    (by decide)

/-- C2: releasing the movable/shareable flavor succeeds iff the aggregate
argument safety is at least `closure_min_arg_safety` and the inner coro's
declared safety is at least `unsafe_closure_internal`; failure happens at
construction (no task is produced), and the immovable `NowTask` flavor is
always produced regardless of either safety level. -/
theorem c2_safety_gate (outerSafety innerSafety : SafetyLevel) (task : Nat) :
    ((release_outer_coro outerSafety innerSafety task).isSome ↔
      (closureMinArgSafety.le outerSafety ∧
        SafetyLevel.closureInternal.le innerSafety)) ∧
    ((release_outer_coro outerSafety innerSafety task) =
        some task ∨
      (release_outer_coro outerSafety innerSafety task) = none) ∧
    emit_now_task task = some task := by
  refine ⟨?_, ?_, rfl⟩
  · unfold release_outer_coro wrap_coro_is_safe has_safe_args is_inner_coro_safe
    split
    · next h =>
      simp only [Bool.and_eq_true, decide_eq_true_eq] at h
      simpa using h
    · next h =>
      simp only [Bool.and_eq_true, decide_eq_true_eq] at h
      simpa using h
  · unfold release_outer_coro
    split
    · exact Or.inl rfl
    · exact Or.inr rfl

/-- Witness for C2 at concrete safety levels (an `after_cleanup_ref`
argument with a `ClosureTask` inner coro is shareable). -/
theorem c2_safety_gate_witness :
    ((release_outer_coro SafetyLevel.afterCleanupRef
          SafetyLevel.closureInternal 7).isSome ↔
      (closureMinArgSafety.le SafetyLevel.afterCleanupRef ∧
        SafetyLevel.closureInternal.le SafetyLevel.closureInternal)) ∧
    ((release_outer_coro SafetyLevel.afterCleanupRef
          SafetyLevel.closureInternal 7) = some 7 ∨
      (release_outer_coro SafetyLevel.afterCleanupRef
          SafetyLevel.closureInternal 7) = none) ∧
    emit_now_task 7 = some 7 :=
  c2_safety_gate SafetyLevel.afterCleanupRef SafetyLevel.closureInternal 7

/-- C10: `cumsum_except_last` over seed `S` and values `v1..vn` is the
length-`n` sequence of exclusive prefix sums `S, S+v1, ..., S+v1+...+v(n-1)`
-- the last input contributes to no output. -/
theorem c10_cumsum_except_last (s : Nat) (vs : List Nat) :
    cumsum_except_last s vs =
      (List.range vs.length).map (fun i => s + (vs.take i).sum) := by
  induction vs generalizing s with
  | nil => rfl
  | cons v tl ih =>
    simp only [cumsum_except_last, List.length_cons, List.range_succ_eq_map,
      List.map_cons, List.take_zero, List.sum_nil, Nat.add_zero, List.map_map]
    refine congrArg (s :: ·) ?_
    rw [ih (s + v)]
    refine List.map_congr_left ?_
    intro i _
    simp only [Function.comp_apply, List.take_succ_cons, List.sum_cons]
    omega

/-- Witness for C10 at the concrete pack from the test
(`cumsum_except_last<0, 2, 1, 3>` is `vtag_t<0, 2, 3>`) shown against the
theorem's prefix-sum form. -/
theorem c10_cumsum_except_last_witness :
    cumsum_except_last 0 [2, 1, 3] =
      (List.range [2, 1, 3].length).map (fun i => 0 + ([2, 1, 3].take i).sum) :=
  c10_cumsum_except_last 0 [2, 1, 3]

/-- C9: a constructed `co_error` never holds an empty `exception_wrapper`,
and a constructed `co_result` whose `Try` is in the exception state always
holds a non-null exception -- consumers never observe an exception-state
with no exception. -/
theorem c9_no_empty_error :
    (∀ ex : Option Nat, ∀ ce : CoErrorModel,
      co_error_construct ex = some ce → ce.ex.isSome = true) ∧
    (∀ t : TryModel, ∀ cr : CoResultModel,
      co_result_construct t = some cr →
        ∀ e : Option Nat, cr.result = TryModel.exn e → e.isSome = true) := by
  constructor
  · intro ex ce h
    unfold co_error_construct at h
    split at h
    · next hs => cases h; simpa using hs
    · cases h
  · intro t cr h e he
    unfold co_result_construct at h
    split at h
    · next hs =>
      cases h
      simp only at he
      subst he
      simpa [TryModel.hasException, TryModel.exceptionTruthy] using hs
    · cases h

/-- Witness for C9: a `co_error` built from a non-empty wrapper, and a
`co_result` built from an exception-state `Try` with a non-null exception. -/
theorem c9_no_empty_error_witness :
    (co_error_construct (some 111) = some ⟨some 111⟩ →
      (CoErrorModel.mk (some 111)).ex.isSome = true) ∧
    (co_result_construct (TryModel.exn (some 111)) = some ⟨TryModel.exn (some 111)⟩ →
      (CoResultModel.mk (TryModel.exn (some 111))).result = TryModel.exn (some 111) →
        (some 111 : Option Nat).isSome = true) :=
  ⟨fun h => c9_no_empty_error.1 (some 111) ⟨some 111⟩ h,
    fun h he => c9_no_empty_error.2 (TryModel.exn (some 111))
      ⟨TryModel.exn (some 111)⟩ h (some 111) he⟩

lemma precedes_of_split (a b : List TraceEvent) (p q : TraceEvent → Bool)
    (hpb : ∀ ev ∈ b, p ev = false) (hqa : ∀ ev ∈ a, q ev = false) :
    precedes (a ++ b) p q := by
  intro i hi j hj hp hq
  simp only [List.get_eq_getElem] at hp hq
  have hia : i < a.length := by
    by_contra hge
    push_neg at hge
    have hib : i - a.length < b.length := by
      simp only [List.length_append] at hi
      omega
    have heq : (a ++ b)[i] = b[i - a.length] := List.getElem_append_right hge
    rw [heq] at hp
    have hfalse := hpb _ (List.getElem_mem hib)
    rw [hp] at hfalse
    cases hfalse
  have hja : a.length ≤ j := by
    by_contra hlt
    push_neg at hlt
    have heq : (a ++ b)[j] = a[j] := List.getElem_append_left _
    rw [heq] at hq
    have hfalse := hqa _ (List.getElem_mem hlt)
    rw [hq] at hfalse
    cases hfalse
  omega

lemma pred_false_on_map {β : Type} (f : β → TraceEvent) (p : TraceEvent → Bool)
    (hf : ∀ x : β, p (f x) = false) (l : List β) :
    ∀ ev ∈ l.map f, p ev = false := by
  intro ev hev
  obtain ⟨x, -, rfl⟩ := List.mem_map.mp hev
  exact hf x

lemma pred_false_append (p : TraceEvent → Bool) (a b : List TraceEvent)
    (ha : ∀ ev ∈ a, p ev = false) (hb : ∀ ev ∈ b, p ev = false) :
    ∀ ev ∈ a ++ b, p ev = false := by
  intro ev hev
  rcases List.mem_append.mp hev with h | h
  exacts [ha ev h, hb ev h]

lemma cleanupIdxList_eq_nil (l : List TraceEvent)
    (h : ∀ ev ∈ l, isCleanupEvt ev = false) : cleanupIdxList l = [] := by
  induction l with
  | nil => rfl
  | cons x xs ih =>
    have hx := h x (List.mem_cons_self x xs)
    have hxs := ih fun ev hev => h ev (List.mem_cons_of_mem x hev)
    cases x <;>
      first
      | simpa [cleanupIdxList, List.filterMap_cons] using hxs
      | simp [isCleanupEvt] at hx

lemma makeIdxList_eq_nil (l : List TraceEvent)
    (h : ∀ ev ∈ l, isMakeEvt ev = false) : makeIdxList l = [] := by
  induction l with
  | nil => rfl
  | cons x xs ih =>
    have hx := h x (List.mem_cons_self x xs)
    have hxs := ih fun ev hev => h ev (List.mem_cons_of_mem x hev)
    cases x <;>
      first
      | simpa [makeIdxList, List.filterMap_cons] using hxs
      | simp [isMakeEvt] at hx

lemma cleanupIdxList_map_runCleanup (l : List Nat) (c : Option Nat) :
    cleanupIdxList (l.map fun i => TraceEvent.runCleanup i c) = l := by
  induction l with
  | nil => rfl
  | cons x xs ih =>
    simpa [cleanupIdxList, List.filterMap_cons] using ih

lemma makeIdxList_map_make (l : List Nat) :
    makeIdxList (l.map TraceEvent.makeCleanupTask) = l := by
  induction l with
  | nil => rfl
  | cons x xs ih =>
    simpa [makeIdxList, List.filterMap_cons] using ih

lemma cleanupIdxList_append (a b : List TraceEvent) :
    cleanupIdxList (a ++ b) = cleanupIdxList a ++ cleanupIdxList b :=
  List.filterMap_append a b _

lemma makeIdxList_append (a b : List TraceEvent) :
    makeIdxList (a ++ b) = makeIdxList a ++ makeIdxList b :=
  List.filterMap_append a b _

lemma closureRun_trace_decomp (hooks : List Bool) (setCancelTok : Bool)
    (cancelErr : Option Nat) (inner : InnerOutcome) (post : Nat → Nat) :
    ∃ mid : List TraceEvent,
      (closureRun hooks setCancelTok cancelErr inner post).trace =
        (List.range hooks.length).map TraceEvent.constructArg ++
          ((hookIndices hooks).reverse.map TraceEvent.makeCleanupTask ++
            (mid ++
              ((hookIndices hooks).reverse.map (fun i =>
                  TraceEvent.runCleanup i
                    (closureRun hooks setCancelTok cancelErr inner
                        post).firstErr) ++
                (List.range hooks.length).reverse.map
                  TraceEvent.destroyArg))) ∧
      ∀ ev ∈ mid, isCleanupEvt ev = false ∧ isDestroyEvt ev = false ∧
        isMakeEvt ev = false := by
  cases setCancelTok with
  | false =>
    cases inner with
    | value v =>
      refine ⟨[TraceEvent.awaitInner], by simp [closureRun], ?_⟩
      intro ev hev
      simp only [List.mem_singleton] at hev
      subst hev
      exact ⟨rfl, rfl, rfl⟩
    | failure e =>
      refine ⟨[TraceEvent.awaitInner], by simp [closureRun], ?_⟩
      intro ev hev
      simp only [List.mem_singleton] at hev
      subst hev
      exact ⟨rfl, rfl, rfl⟩
  | true =>
    cases cancelErr with
    | none =>
      cases inner with
      | value v =>
        refine ⟨[TraceEvent.propagateCancel, TraceEvent.awaitInner],
          by simp [closureRun], ?_⟩
        intro ev hev
        rcases List.mem_cons.mp hev with h | h
        · subst h; exact ⟨rfl, rfl, rfl⟩
        · simp only [List.mem_singleton] at h
          subst h; exact ⟨rfl, rfl, rfl⟩
      | failure e =>
        refine ⟨[TraceEvent.propagateCancel, TraceEvent.awaitInner],
          by simp [closureRun], ?_⟩
        intro ev hev
        rcases List.mem_cons.mp hev with h | h
        · subst h; exact ⟨rfl, rfl, rfl⟩
        · simp only [List.mem_singleton] at h
          subst h; exact ⟨rfl, rfl, rfl⟩
    | some e =>
      refine ⟨[TraceEvent.propagateCancel], by simp [closureRun], ?_⟩
      intro ev hev
      simp only [List.mem_singleton] at hev
      subst hev
      exact ⟨rfl, rfl, rfl⟩

lemma precedes_last_segment (a b c d e : List TraceEvent)
    (p q : TraceEvent → Bool) (hpe : ∀ ev ∈ e, p ev = false)
    (hq : ∀ ev ∈ a ++ (b ++ (c ++ d)), q ev = false) :
    precedes (a ++ (b ++ (c ++ (d ++ e)))) p q := by
  have hshape : a ++ (b ++ (c ++ (d ++ e))) = (a ++ (b ++ (c ++ d))) ++ e := by
    simp [List.append_assoc]
  rw [hshape]
  exact precedes_of_split _ _ _ _ hpe hq

lemma precedes_first_two (a b c d e : List TraceEvent)
    (p q : TraceEvent → Bool) (hp : ∀ ev ∈ c ++ (d ++ e), p ev = false)
    (hqa : ∀ ev ∈ a ++ b, q ev = false) :
    precedes (a ++ (b ++ (c ++ (d ++ e)))) p q := by
  have hshape : a ++ (b ++ (c ++ (d ++ e))) = (a ++ b) ++ (c ++ (d ++ e)) := by
    simp [List.append_assoc]
  rw [hshape]
  exact precedes_of_split _ _ _ _ hp hqa

/-- C1: in every closure execution the cleanup hooks run strictly
sequentially in the exact reverse of the argument construction order (the
trace's cleanup indices are the reverse of the hook-declaring argument
indices), and no owned argument's destructor runs before every cleanup
across all owned arguments has completed (every cleanup event strictly
precedes every destruction event). -/
theorem c1_cleanup_reverse_order_before_dtors (hooks : List Bool)
    (setCancelTok : Bool) (cancelErr : Option Nat) (inner : InnerOutcome)
    (post : Nat → Nat) :
    cleanupIdxList (closureRun hooks setCancelTok cancelErr inner post).trace =
      (hookIndices hooks).reverse ∧
    precedes (closureRun hooks setCancelTok cancelErr inner post).trace
      isCleanupEvt isDestroyEvt := by
  obtain ⟨mid, htr, hmid⟩ :=
    closureRun_trace_decomp hooks setCancelTok cancelErr inner post
  constructor
  · rw [htr, cleanupIdxList_append, cleanupIdxList_append,
      cleanupIdxList_append, cleanupIdxList_append,
      cleanupIdxList_eq_nil _ (pred_false_on_map _ _ (fun _ => rfl) _),
      cleanupIdxList_eq_nil _ (pred_false_on_map _ _ (fun _ => rfl) _),
      cleanupIdxList_eq_nil mid (fun ev hev => (hmid ev hev).1),
      cleanupIdxList_map_runCleanup,
      cleanupIdxList_eq_nil _ (pred_false_on_map _ _ (fun _ => rfl) _)]
    simp
  · rw [htr]
    refine precedes_last_segment _ _ _ _ _ _ _
      (pred_false_on_map _ _ (fun _ => rfl) _) ?_
    refine pred_false_append _ _ _
      (pred_false_on_map _ _ (fun _ => rfl) _) ?_
    refine pred_false_append _ _ _
      (pred_false_on_map _ _ (fun _ => rfl) _) ?_
    refine pred_false_append _ _ _ (fun ev hev => (hmid ev hev).2.1) ?_
    exact pred_false_on_map _ _ (fun _ => rfl) _

/-- Witness for C1: four owned arguments, each with a cleanup hook, with
the inner task succeeding. -/
theorem c1_cleanup_reverse_order_before_dtors_witness :
    cleanupIdxList
        (closureRun [true, true, true, true] true none (InnerOutcome.value 0)
            id).trace =
      (hookIndices [true, true, true, true]).reverse ∧
    precedes
      (closureRun [true, true, true, true] true none (InnerOutcome.value 0)
          id).trace
      isCleanupEvt isDestroyEvt :=
  c1_cleanup_reverse_order_before_dtors [true, true, true, true] true none
    (InnerOutcome.value 0) id

/-- C7: in every closure execution with an outer coroutine, one cleanup
task is materialized for each hook-declaring argument (the trace's
materialization indices are exactly the hook indices), and every
materialization strictly precedes the await of the inner computation. -/
theorem c7_cleanups_materialized_before_inner (hooks : List Bool)
    (setCancelTok : Bool) (cancelErr : Option Nat) (inner : InnerOutcome)
    (post : Nat → Nat) :
    makeIdxList (closureRun hooks setCancelTok cancelErr inner post).trace =
      (hookIndices hooks).reverse ∧
    precedes (closureRun hooks setCancelTok cancelErr inner post).trace
      isMakeEvt isAwaitEvt := by
  obtain ⟨mid, htr, hmid⟩ :=
    closureRun_trace_decomp hooks setCancelTok cancelErr inner post
  constructor
  · rw [htr, makeIdxList_append, makeIdxList_append, makeIdxList_append,
      makeIdxList_append,
      makeIdxList_eq_nil _ (pred_false_on_map _ _ (fun _ => rfl) _),
      makeIdxList_map_make,
      makeIdxList_eq_nil mid (fun ev hev => (hmid ev hev).2.2),
      makeIdxList_eq_nil _ (pred_false_on_map _ _ (fun _ => rfl) _),
      makeIdxList_eq_nil _ (pred_false_on_map _ _ (fun _ => rfl) _)]
    simp
  · rw [htr]
    refine precedes_first_two _ _ _ _ _ _ _ ?_ ?_
    · refine pred_false_append _ _ _ (fun ev hev => (hmid ev hev).2.2) ?_
      exact pred_false_append _ _ _
        (pred_false_on_map _ _ (fun _ => rfl) _)
        (pred_false_on_map _ _ (fun _ => rfl) _)
    · exact pred_false_append _ _ _
        (pred_false_on_map _ _ (fun _ => rfl) _)
        (pred_false_on_map _ _ (fun _ => rfl) _)

/-- Witness for C7: two hook-declaring arguments around a plain one, inner
task failing. -/
theorem c7_cleanups_materialized_before_inner_witness :
    makeIdxList
        (closureRun [true, false, true] true none (InnerOutcome.failure 5)
            id).trace =
      (hookIndices [true, false, true]).reverse ∧
    precedes
      (closureRun [true, false, true] true none (InnerOutcome.failure 5)
          id).trace
      isMakeEvt isAwaitEvt :=
  c7_cleanups_materialized_before_inner [true, false, true] true none
    (InnerOutcome.failure 5) id

lemma count_runCleanup_map (l : List Nat) (c : Option Nat) (i : Nat) :
    (l.map fun k => TraceEvent.runCleanup k c).count
        (TraceEvent.runCleanup i c) = l.count i := by
  induction l with
  | nil => rfl
  | cons x xs ih => simp [List.count_cons, ih]

lemma hookIndices_nodup (hooks : List Bool) : (hookIndices hooks).Nodup :=
  List.Nodup.filter _ (List.nodup_range hooks.length)

lemma closureRun_cancel_fail_eq (hooks : List Bool) (e : Nat)
    (inner : InnerOutcome) (post : Nat → Nat) :
    closureRun hooks true (some e) inner post =
      { trace := (List.range hooks.length).map TraceEvent.constructArg ++
          ((hookIndices hooks).reverse.map TraceEvent.makeCleanupTask ++
            (TraceEvent.propagateCancel ::
              ((hookIndices hooks).reverse.map
                  (fun i => TraceEvent.runCleanup i (some e)) ++
                (List.range hooks.length).reverse.map TraceEvent.destroyArg)))
        resSlot := TrySlot.empty
        firstErr := some e
        outcome := ClosureOutcome.fault } := by
  simp [closureRun, outerFinish]

lemma closureRun_inner_value_eq (hooks : List Bool) (v : Nat)
    (post : Nat → Nat) :
    closureRun hooks true none (InnerOutcome.value v) post =
      { trace := (List.range hooks.length).map TraceEvent.constructArg ++
          ((hookIndices hooks).reverse.map TraceEvent.makeCleanupTask ++
            (TraceEvent.propagateCancel :: TraceEvent.awaitInner ::
              ((hookIndices hooks).reverse.map
                  (fun i => TraceEvent.runCleanup i none) ++
                (List.range hooks.length).reverse.map TraceEvent.destroyArg)))
        resSlot := TrySlot.value v
        firstErr := none
        outcome := ClosureOutcome.value (post v) } := by
  simp [closureRun, outerFinish]

lemma closureRun_inner_failure_eq (hooks : List Bool) (E : Nat)
    (post : Nat → Nat) :
    closureRun hooks true none (InnerOutcome.failure E) post =
      { trace := (List.range hooks.length).map TraceEvent.constructArg ++
          ((hookIndices hooks).reverse.map TraceEvent.makeCleanupTask ++
            (TraceEvent.propagateCancel :: TraceEvent.awaitInner ::
              ((hookIndices hooks).reverse.map
                  (fun i => TraceEvent.runCleanup i (some E)) ++
                (List.range hooks.length).reverse.map TraceEvent.destroyArg)))
        resSlot := TrySlot.exn E
        firstErr := some E
        outcome := ClosureOutcome.error (some E) } := by
  simp [closureRun, outerFinish]

/-- C4: when cancellation-token propagation is enabled and delivering the
token fails with error `e`, that error is captured into the shared
first-error cell, the inner computation is never invoked (the outcome slot
stays unwritten and no await event appears), every cleanup hook observes
`e`, and every hook-declaring argument's cleanup executes exactly once. -/
theorem c4_cancel_propagation_failure (hooks : List Bool) (e : Nat)
    (inner : InnerOutcome) (post : Nat → Nat) :
    (closureRun hooks true (some e) inner post).firstErr = some e ∧
    (closureRun hooks true (some e) inner post).resSlot = TrySlot.empty ∧
    (∀ ev ∈ (closureRun hooks true (some e) inner post).trace,
      ev ≠ TraceEvent.awaitInner) ∧
    (∀ i : Nat, ∀ w : Option Nat,
      TraceEvent.runCleanup i w ∈
          (closureRun hooks true (some e) inner post).trace →
        w = some e) ∧
    (∀ i ∈ hookIndices hooks,
      ((closureRun hooks true (some e) inner post).trace).count
          (TraceEvent.runCleanup i (some e)) = 1) := by
  rw [closureRun_cancel_fail_eq]
  refine ⟨rfl, rfl, ?_, ?_, ?_⟩
  · intro ev hev
    rcases List.mem_append.mp hev with h | hev2
    · obtain ⟨x, -, rfl⟩ := List.mem_map.mp h
      simp
    rcases List.mem_append.mp hev2 with h | hev3
    · obtain ⟨x, -, rfl⟩ := List.mem_map.mp h
      simp
    rcases List.mem_cons.mp hev3 with h | hev4
    · subst h; simp
    rcases List.mem_append.mp hev4 with h | h
    · obtain ⟨x, -, rfl⟩ := List.mem_map.mp h
      simp
    · obtain ⟨x, -, rfl⟩ := List.mem_map.mp h
      simp
  · intro i w hw
    rcases List.mem_append.mp hw with h | hw2
    · obtain ⟨x, -, hx⟩ := List.mem_map.mp h
      cases hx
    rcases List.mem_append.mp hw2 with h | hw3
    · obtain ⟨x, -, hx⟩ := List.mem_map.mp h
      cases hx
    rcases List.mem_cons.mp hw3 with h | hw4
    · cases h
    rcases List.mem_append.mp hw4 with h | h
    · obtain ⟨x, -, hx⟩ := List.mem_map.mp h
      injection hx with h1 h2
      exact h2.symm
    · obtain ⟨x, -, hx⟩ := List.mem_map.mp h
      cases hx
  · intro i hi
    have h1 : (((List.range hooks.length).map TraceEvent.constructArg).count
        (TraceEvent.runCleanup i (some e))) = 0 :=
      List.count_eq_zero.mpr (by simp)
    have h2 : (((hookIndices hooks).map TraceEvent.makeCleanupTask).count
        (TraceEvent.runCleanup i (some e))) = 0 :=
      List.count_eq_zero.mpr (by simp)
    have h3 : (((List.range hooks.length).map TraceEvent.destroyArg).count
        (TraceEvent.runCleanup i (some e))) = 0 :=
      List.count_eq_zero.mpr (by simp)
    have h4 : (((hookIndices hooks).map
        (fun k => TraceEvent.runCleanup k (some e))).count
        (TraceEvent.runCleanup i (some e))) = 1 := by
      rw [count_runCleanup_map,
        List.count_eq_one_of_mem (hookIndices_nodup hooks) hi]
    simp [List.count_append, List.count_cons, h1, h2, h3, h4]

/-- Witness for C4: three arguments, the middle one without a hook, inner
task that would have returned a value. -/
theorem c4_cancel_propagation_failure_witness :
    (closureRun [true, false, true] true (some 9) (InnerOutcome.value 3)
        id).firstErr = some 9 ∧
    (closureRun [true, false, true] true (some 9) (InnerOutcome.value 3)
        id).resSlot = TrySlot.empty ∧
    (∀ ev ∈ (closureRun [true, false, true] true (some 9)
        (InnerOutcome.value 3) id).trace,
      ev ≠ TraceEvent.awaitInner) ∧
    (∀ i : Nat, ∀ w : Option Nat,
      TraceEvent.runCleanup i w ∈
          (closureRun [true, false, true] true (some 9)
              (InnerOutcome.value 3) id).trace →
        w = some 9) ∧
    (∀ i ∈ hookIndices [true, false, true],
      ((closureRun [true, false, true] true (some 9) (InnerOutcome.value 3)
            id).trace).count (TraceEvent.runCleanup i (some 9)) = 1) :=
  c4_cancel_propagation_failure [true, false, true] 9 (InnerOutcome.value 3) id

lemma runCleanup_mem_observed (hooks : List Bool) (setCancelTok : Bool)
    (cancelErr : Option Nat) (inner : InnerOutcome) (post : Nat → Nat) :
    ∀ i : Nat, ∀ w : Option Nat,
      TraceEvent.runCleanup i w ∈
          (closureRun hooks setCancelTok cancelErr inner post).trace →
        w = (closureRun hooks setCancelTok cancelErr inner post).firstErr := by
  obtain ⟨mid, htr, hmid⟩ :=
    closureRun_trace_decomp hooks setCancelTok cancelErr inner post
  intro i w hw
  rw [htr] at hw
  rcases List.mem_append.mp hw with h | hw2
  · obtain ⟨x, -, hx⟩ := List.mem_map.mp h
    cases hx
  rcases List.mem_append.mp hw2 with h | hw3
  · obtain ⟨x, -, hx⟩ := List.mem_map.mp h
    cases hx
  rcases List.mem_append.mp hw3 with h | hw4
  · have hfalse := (hmid _ h).1
    simp [isCleanupEvt] at hfalse
  rcases List.mem_append.mp hw4 with h | h
  · obtain ⟨x, -, hx⟩ := List.mem_map.mp h
    injection hx with h1 h2
    exact h2.symm
  · obtain ⟨x, -, hx⟩ := List.mem_map.mp h
    cases hx

/-- C5: when the inner computation fails with error `E`, every cleanup hook
observes exactly `E` through its error reference and the closure's caller
receives `E` unchanged; when the inner computation succeeds, every cleanup
hook observes an empty (no-error) reference. -/
theorem c5_cleanup_observes_first_error (hooks : List Bool) (E v : Nat)
    (post : Nat → Nat) :
    (∀ i : Nat, ∀ w : Option Nat,
      TraceEvent.runCleanup i w ∈
          (closureRun hooks true none (InnerOutcome.failure E) post).trace →
        w = some E) ∧
    (closureRun hooks true none (InnerOutcome.failure E) post).outcome =
      ClosureOutcome.error (some E) ∧
    (∀ i : Nat, ∀ w : Option Nat,
      TraceEvent.runCleanup i w ∈
          (closureRun hooks true none (InnerOutcome.value v) post).trace →
        w = none) := by
  refine ⟨?_, ?_, ?_⟩
  · intro i w hw
    have h := runCleanup_mem_observed hooks true none
      (InnerOutcome.failure E) post i w hw
    rw [closureRun_inner_failure_eq] at h
    exact h
  · rw [closureRun_inner_failure_eq]
  · intro i w hw
    have h := runCleanup_mem_observed hooks true none
      (InnerOutcome.value v) post i w hw
    rw [closureRun_inner_value_eq] at h
    exact h

/-- Witness for C5: one hook-declaring argument, inner failure `MagicError
111` and inner success with value 7. -/
theorem c5_cleanup_observes_first_error_witness :
    (∀ i : Nat, ∀ w : Option Nat,
      TraceEvent.runCleanup i w ∈
          (closureRun [true] true none (InnerOutcome.failure 111) id).trace →
        w = some 111) ∧
    (closureRun [true] true none (InnerOutcome.failure 111) id).outcome =
      ClosureOutcome.error (some 111) ∧
    (∀ i : Nat, ∀ w : Option Nat,
      TraceEvent.runCleanup i w ∈
          (closureRun [true] true none (InnerOutcome.value 7) id).trace →
        w = none) :=
  c5_cleanup_observes_first_error [true] 111 7 id

lemma resSlot_exn_firstErr (hooks : List Bool) (setCancelTok : Bool)
    (cancelErr : Option Nat) (inner : InnerOutcome) (post : Nat → Nat)
    (e : Nat) :
    (closureRun hooks setCancelTok cancelErr inner post).resSlot =
        TrySlot.exn e →
    (closureRun hooks setCancelTok cancelErr inner post).firstErr = some e := by
  cases setCancelTok with
  | false => cases inner <;> simp [closureRun]
  | true =>
    cases cancelErr with
    | none => cases inner <;> simp [closureRun]
    | some e0 => simp [closureRun]

/-- C6: after all cleanups, the outer coroutine completes exactly via the
priority order of `outerFinish`: a written value wins (returned through the
`result_after_cleanup` post-processing), else a written exception re-raises
the captured first error (which holds the inner error), else the defensive
`UsingUninitializedTry` fault -- never a silent success. -/
theorem c6_completion_priority (hooks : List Bool) (setCancelTok : Bool)
    (cancelErr : Option Nat) (inner : InnerOutcome) (post : Nat → Nat) :
    (closureRun hooks setCancelTok cancelErr inner post).outcome =
      outerFinish post
        (closureRun hooks setCancelTok cancelErr inner post).resSlot
        (closureRun hooks setCancelTok cancelErr inner post).firstErr ∧
    (∀ v : Nat,
      (closureRun hooks setCancelTok cancelErr inner post).resSlot =
          TrySlot.value v →
        (closureRun hooks setCancelTok cancelErr inner post).outcome =
          ClosureOutcome.value (post v)) ∧
    (∀ e : Nat,
      (closureRun hooks setCancelTok cancelErr inner post).resSlot =
          TrySlot.exn e →
        (closureRun hooks setCancelTok cancelErr inner post).outcome =
            ClosureOutcome.error
              (closureRun hooks setCancelTok cancelErr inner post).firstErr ∧
          (closureRun hooks setCancelTok cancelErr inner post).firstErr =
            some e) ∧
    ((closureRun hooks setCancelTok cancelErr inner post).resSlot =
        TrySlot.empty →
      (closureRun hooks setCancelTok cancelErr inner post).outcome =
        ClosureOutcome.fault) ∧
    (∀ v : Nat,
      (closureRun hooks setCancelTok cancelErr inner post).outcome =
          ClosureOutcome.value v →
        ∃ w : Nat,
          (closureRun hooks setCancelTok cancelErr inner post).resSlot =
              TrySlot.value w ∧
            v = post w) := by
  have hout : (closureRun hooks setCancelTok cancelErr inner post).outcome =
      outerFinish post
        (closureRun hooks setCancelTok cancelErr inner post).resSlot
        (closureRun hooks setCancelTok cancelErr inner post).firstErr := rfl
  refine ⟨hout, ?_, ?_, ?_, ?_⟩
  · intro v hv
    rw [hout, hv]
    rfl
  · intro e he
    refine ⟨by rw [hout, he]; rfl, resSlot_exn_firstErr hooks setCancelTok
      cancelErr inner post e he⟩
  · intro hempty
    rw [hout, hempty]
    rfl
  · intro v hv
    rw [hout] at hv
    cases hres : (closureRun hooks setCancelTok cancelErr inner post).resSlot with
    | empty => rw [hres] at hv; cases hv
    | value w =>
      rw [hres] at hv
      injection hv with hpw
      exact ⟨w, rfl, hpw.symm⟩
    | exn e1 => rw [hres] at hv; cases hv

/-- Witness for C6: one hook-declaring argument, inner failure 5. -/
theorem c6_completion_priority_witness :
    (closureRun [true] true none (InnerOutcome.failure 5) id).outcome =
      outerFinish id
        (closureRun [true] true none (InnerOutcome.failure 5) id).resSlot
        (closureRun [true] true none (InnerOutcome.failure 5) id).firstErr ∧
    (∀ v : Nat,
      (closureRun [true] true none (InnerOutcome.failure 5) id).resSlot =
          TrySlot.value v →
        (closureRun [true] true none (InnerOutcome.failure 5) id).outcome =
          ClosureOutcome.value (id v)) ∧
    (∀ e : Nat,
      (closureRun [true] true none (InnerOutcome.failure 5) id).resSlot =
          TrySlot.exn e →
        (closureRun [true] true none (InnerOutcome.failure 5) id).outcome =
            ClosureOutcome.error
              (closureRun [true] true none (InnerOutcome.failure 5)
                  id).firstErr ∧
          (closureRun [true] true none (InnerOutcome.failure 5) id).firstErr =
            some e) ∧
    ((closureRun [true] true none (InnerOutcome.failure 5) id).resSlot =
        TrySlot.empty →
      (closureRun [true] true none (InnerOutcome.failure 5) id).outcome =
        ClosureOutcome.fault) ∧
    (∀ v : Nat,
      (closureRun [true] true none (InnerOutcome.failure 5) id).outcome =
          ClosureOutcome.value v →
        ∃ w : Nat,
          (closureRun [true] true none (InnerOutcome.failure 5) id).resSlot =
              TrySlot.value w ∧
            v = id w) :=
  c6_completion_priority [true] true none (InnerOutcome.failure 5) id

/-- C8: the heap storage arena is allocated iff at least one binding
requires outer-coroutine storage, and a forced outer coroutine over
arguments none of which declare a cleanup hook produces an outcome
observably identical to awaiting the inner task directly without an arena,
for every inner computation. -/
theorem c8_arena_iff_needed_and_equiv (bs : List ClosureBinding)
    (inner : InnerOutcome) (n : Nat) :
    ((storage_ptr_of bs).isSome = true ↔
      ∃ b ∈ bs, b.needsOuterStorage = true) ∧
    (closureRun (List.replicate n false) true none inner id).outcome =
      runNoOuterCoro inner := by
  constructor
  · have hiff : (storage_ptr_of bs).isSome = true ↔
        ¬(collect_outer_stored bs = []) := by
      unfold storage_ptr_of
      split
      · next h => simp [h]
      · next h => simp [h]
    rw [hiff]
    unfold collect_outer_stored
    rw [List.filter_eq_nil_iff]
    push_neg
    simp
  · cases inner with
    | value v => rw [closureRun_inner_value_eq]; rfl
    | failure e => rw [closureRun_inner_failure_eq]; rfl

/-- Witness for C8: one binding that needs outer storage next to one that
does not, with a failing inner task and three plain arguments. -/
theorem c8_arena_iff_needed_and_equiv_witness :
    ((storage_ptr_of [⟨true⟩, ⟨false⟩]).isSome = true ↔
      ∃ b ∈ [ClosureBinding.mk true, ClosureBinding.mk false],
        b.needsOuterStorage = true) ∧
    (closureRun (List.replicate 3 false) true none (InnerOutcome.failure 2)
        id).outcome = runNoOuterCoro (InnerOutcome.failure 2) :=
  c8_arena_iff_needed_and_equiv [⟨true⟩, ⟨false⟩] (InnerOutcome.failure 2) 3
